import Mathlib

/-!
Verification development for the mania-svg layout-resolution and
geometry-generation pipeline (src/index.ts).  JavaScript numbers are
modelled as exact rationals; JS exceptions are modelled with `Except`;
optional fields are `Option`; the literal `'auto' | number` union is the
inductive type `AutoOr`.  All definitions are transcribed from the source
file (the iteration with axis support, ratio strip mode and the
target-size fit, which is the one the specification describes).
-/

namespace ManiaSvg

/-- A note: a tap (no end time) or a hold (with an end time).
The source field named end is called endTime here (reserved word). -/
structure Note where
  column : Nat
  start : ℚ
  endTime : Option ℚ
deriving Repr, DecidableEq

/-- A tempo/meter regime starting at time. -/
structure TimingPoint where
  time : ℚ
  bpm : ℚ
  meter : ℚ
deriving Repr, DecidableEq

/-- The caller-supplied chart. -/
structure Beatmap where
  keys : Nat
  notes : List Note
  timingPoints : List TimingPoint
deriving Repr, DecidableEq

/-- The source type union auto-or-number used for time.start and time.end. -/
inductive AutoOr where
  | auto
  | val (x : ℚ)
deriving Repr, DecidableEq

/-- Numeric fields of the note option block. -/
structure NoteOptions where
  width : ℚ
  height : ℚ
  rx : ℚ
  bodyWidth : ℚ
  bodyColor : Option String
deriving Repr, DecidableEq

/-- Time option block; the source field named end is called stop here. -/
structure TimeOptions where
  start : AutoOr
  stop : AutoOr
  scale : ℚ
deriving Repr, DecidableEq

/-- Axis option block (only the width participates in layout). -/
structure AxisOptions where
  width : ℚ
deriving Repr, DecidableEq

/-- The strip layout mode. -/
inductive StripMode where
  | num
  | time
  | ratio
deriving Repr, DecidableEq

/-- Strip option block. -/
structure StripOptions where
  mode : StripMode
  num : Option ℚ
  time : Option ℚ
  ratio : Option ℚ
deriving Repr, DecidableEq

/-- Layout option block. -/
structure LayoutOptions where
  margin : ℚ × ℚ
  finalScale : ℚ
  targetSize : Option (ℚ × ℚ)
deriving Repr, DecidableEq

/-- The option set (numeric/structural fields used by the resolver and
the emitters; the pluggable element builders are modelled by their
default implementations below). -/
structure Options where
  note : NoteOptions
  time : TimeOptions
  axis : AxisOptions
  strip : StripOptions
  layout : LayoutOptions
deriving Repr, DecidableEq

/-- One error per throw site of the resolver and of the color selector.
The empty-timing-data case is the JS crash on timingPoints[0].time. -/
inductive ResolveError where
  | emptyTimingData
  | stripNumMissing
  | stripNumOutOfRange
  | stripTimeMissing
  | stripTimeNonPositive
  | stripNumZero
  | stripRatioMissing
  | stripRatioNonPositive
  | stripRatioTooLarge
  | targetSizeOutOfRange
  | unsupportedKeys
  | invalidColumn
deriving Repr, DecidableEq

/-- Resolution of the window start (source lines 706-708): the explicit
value, else max(0, timingPoints[0].time); reading element 0 of an empty
array is the empty-timing-data failure. -/
def resolveStart (bm : Beatmap) (opts : Options) : Except ResolveError ℚ :=
  match opts.time.start with
  | .auto =>
    match bm.timingPoints with
    | [] => .error .emptyTimingData
    | tp :: _ => .ok (max 0 tp.time)
  | .val s => .ok s

/-- The base window end before padding (source lines 710-712): the
explicit value, else the fold of note.end-or-start with the resolved
start as initial value. -/
def baseEnd (bm : Beatmap) (opts : Options) (start : ℚ) : ℚ :=
  match opts.time.stop with
  | .auto => bm.notes.foldl (fun m nt => max m (nt.endTime.getD nt.start)) start
  | .val e => e

/-- The padded window end (source line 713): base end plus
note.height / time.scale. -/
def resolveEnd0 (bm : Beatmap) (opts : Options) (start : ℚ) : ℚ :=
  baseEnd bm opts start + opts.note.height / opts.time.scale

/-- The six values returned by the computeLayout closure. -/
structure LayoutDims where
  stripWidth : ℚ
  stripHeight : ℚ
  contentWidth : ℚ
  contentHeight : ℚ
  totalWidth : ℚ
  totalHeight : ℚ
deriving Repr, DecidableEq

/-- The computeLayout closure (source lines 715-723), with its captured
start and end passed explicitly. -/
def computeLayout (bm : Beatmap) (opts : Options) (start stop : ℚ)
    (stripNum : ℚ) : LayoutDims :=
  let stripWidth := (bm.keys : ℚ) * opts.note.width + opts.axis.width
  let stripHeight := (stop - start) * opts.time.scale / stripNum
  let contentWidth := stripNum * stripWidth
  let contentHeight := stripHeight
  { stripWidth := stripWidth
    stripHeight := stripHeight
    contentWidth := contentWidth
    contentHeight := contentHeight
    totalWidth := opts.layout.margin.1 * 2 + contentWidth
    totalHeight := opts.layout.margin.2 * 2 + contentHeight }

/-- Canvas aspect ratio produced by a candidate strip count (the
currentRatio expression of the ratio-mode search loop). -/
def layoutRatio (bm : Beatmap) (opts : Options) (start stop : ℚ)
    (n : ℚ) : ℚ :=
  (computeLayout bm opts start stop n).totalWidth /
    (computeLayout bm opts start stop n).totalHeight

/-- The ratio-mode while loop (source lines 758-772).  The counter
starts at 1 and increments by 1 while at most 50, so 51 call steps of
fuel always cover the whole loop. -/
def ratioGo (r : ℚ) (ratioAt : ℚ → ℚ) :
    Nat → ℚ → ℚ → ℚ
  | 0, n, _ => n
  | fuel + 1, n, lastRatio =>
    if n > 50 then n
    else
      let cur := ratioAt n
      if cur ≥ r then
        if r - lastRatio < cur - r then n - 1 else n
      else ratioGo r ratioAt fuel (n + 1) cur

/-- The strip-mode dispatch (source lines 725-775).  Returns the strip
count together with the (possibly re-expanded) window end. -/
def resolveStrip (bm : Beatmap) (opts : Options) (start end0 : ℚ) :
    Except ResolveError (ℚ × ℚ) :=
  match opts.strip.mode with
  | .num =>
    match opts.strip.num with
    | none => .error .stripNumMissing
    | some n =>
      if n ≤ 0 ∨ n > 50 then .error .stripNumOutOfRange
      else .ok (n, end0)
  | .time =>
    match opts.strip.time with
    | none => .error .stripTimeMissing
    | some d =>
      if d ≤ 0 then .error .stripTimeNonPositive
      else
        let n : ℤ := min ⌈(end0 - start) / d⌉ 50
        if n ≤ 0 then .error .stripNumZero
        else .ok ((n : ℚ), start + (n : ℚ) * d)
  | .ratio =>
    match opts.strip.ratio with
    | none => .error .stripRatioMissing
    | some r =>
      if r ≤ 0 then .error .stripRatioNonPositive
      else if r > 20 then .error .stripRatioTooLarge
      else .ok (ratioGo r (layoutRatio bm opts start end0) 51 1 0, end0)

/-- The target-size fit (source lines 781-802).  Returns final scale,
margins and the recomputed canvas totals. -/
def applyTargetSize (opts : Options) (L : LayoutDims) :
    Except ResolveError (ℚ × (ℚ × ℚ) × ℚ × ℚ) :=
  match opts.layout.targetSize with
  | none =>
    .ok (opts.layout.finalScale, opts.layout.margin, L.totalWidth, L.totalHeight)
  | some (tw, th) =>
    if tw < 32 ∨ tw > 20000 ∨ th < 32 ∨ th > 20000 then
      .error .targetSizeOutOfRange
    else
      let scaleX := tw / L.totalWidth
      let scaleY := th / L.totalHeight
      let f := min opts.layout.finalScale (min scaleX scaleY)
      let mx := max opts.layout.margin.1 ((tw / f - L.contentWidth) / 2)
      let my := max opts.layout.margin.2 ((th / f - L.contentHeight) / 2)
      .ok (f, (mx, my), mx * 2 + L.contentWidth, my * 2 + L.contentHeight)

/-- The resolved time window kept in the context. -/
structure ResolvedTime where
  start : ℚ
  stop : ℚ
  scale : ℚ
deriving Repr, DecidableEq

/-- The resolved strip block kept in the context. -/
structure ResolvedStrip where
  num : ℚ
  width : ℚ
  height : ℚ
deriving Repr, DecidableEq

/-- The layout context returned by resolveOptions. -/
structure Context where
  beatmap : Beatmap
  note : NoteOptions
  axis : AxisOptions
  time : ResolvedTime
  strip : ResolvedStrip
  margin : ℚ × ℚ
  totalWidth : ℚ
  totalHeight : ℚ
  finalScale : ℚ
deriving Repr, DecidableEq

/-- The resolver (source lines 700-823), composed of the helper
stages above exactly in source order. -/
def resolveOptions (bm : Beatmap) (opts : Options) :
    Except ResolveError Context :=
  match resolveStart bm opts with
  | .error e => .error e
  | .ok start =>
    match resolveStrip bm opts start (resolveEnd0 bm opts start) with
    | .error e => .error e
    | .ok (n, stop) =>
      let L := computeLayout bm opts start stop n
      match applyTargetSize opts L with
      | .error e => .error e
      | .ok (f, m, totW, totH) =>
        .ok { beatmap := bm
              note := opts.note
              axis := opts.axis
              time := { start := start, stop := stop,
                        scale := opts.time.scale }
              strip := { num := n, width := L.stripWidth,
                         height := L.stripHeight }
              margin := m
              totalWidth := totW
              totalHeight := totH
              finalScale := f }

/-- Bar duration of a timing point: (60000 / bpm) * meter
(source lines 957-958). -/
def barDurOf (tp : TimingPoint) : ℚ :=
  60000 / tp.bpm * tp.meter

/-- The inner stepping loop of the bar-line generator (source line 960):
step from the current time by the bar duration while the time is below
the regime bound and at most the window end, emitting each stepped time
that is at least the window start.  The loop of the source is expressed
with a structural fuel argument. -/
def segBars (barDur nextTime endT start : ℚ) :
    Nat → ℚ → List ℚ
  | 0, _ => []
  | fuel + 1, t =>
    if t < nextTime ∧ t ≤ endT then
      (if t ≥ start then [t] else []) ++
        segBars barDur nextTime endT start fuel (t + barDur)
    else []

/-- Fuel that covers every iteration of the stepping loop whenever the
bar duration is positive: the loop condition requires the stepped time
to stay at most endT, which bounds the iteration count by
floor((endT - time) / barDuration) + 2. -/
def segFuel (tp : TimingPoint) (endT : ℚ) : Nat :=
  (⌊(endT - tp.time) / barDurOf tp⌋ + 2).toNat

/-- The outer per-timing-point loop of the bar-line generator
(source lines 954-965): the regime of each point ends at the next
point's time, or at the window end for the last point. -/
def barSegments (start endT : ℚ) : List TimingPoint → List ℚ
  | [] => []
  | tp :: rest =>
    let nextTime := match rest with
      | [] => endT
      | tp2 :: _ => tp2.time
    segBars (barDurOf tp) nextTime endT start (segFuel tp endT) tp.time ++
      barSegments start endT rest

/-- The bar-line generator (source lines 946-968): sort the timing
points ascending by time, then emit each regime's grid. -/
def generateBarLinePositions (tps : List TimingPoint) (start endT : ℚ) :
    List ℚ :=
  barSegments start endT
    (tps.mergeSort (fun a b => decide (a.time ≤ b.time)))

/-- Preset palette (source lines 558-563). -/
def presetColorSchemes : List String :=
  ["#FFFFFF", "#5EAEFF", "#FFEC5E", "#FF3F00"]

/-- Preset per-key-count lane layout table (source lines 565-580),
as a partial map from the key count. -/
def presetKeyLayouts (keys : Nat) : Option (List Nat) :=
  match keys with
  | 1 => some [0]
  | 2 => some [0, 0]
  | 3 => some [0, 1, 0]
  | 4 => some [0, 1, 1, 0]
  | 5 => some [0, 1, 2, 1, 0]
  | 6 => some [0, 1, 0, 0, 1, 0]
  | 7 => some [0, 1, 0, 2, 0, 1, 0]
  | 8 => some [0, 1, 0, 2, 2, 0, 1, 0]
  | 9 => some [3, 0, 1, 0, 2, 0, 1, 0, 3]
  | 10 => some [3, 0, 1, 0, 2, 2, 0, 1, 0, 3]
  | 12 => some [3, 1, 0, 1, 0, 2, 2, 0, 1, 0, 1, 3]
  | 14 => some [3, 0, 1, 0, 1, 0, 2, 2, 0, 1, 0, 1, 0, 3]
  | 16 => some [3, 1, 0, 1, 0, 1, 0, 2, 2, 0, 1, 0, 1, 0, 1, 3]
  | 18 => some [3, 0, 1, 0, 1, 0, 1, 0, 2, 2, 0, 1, 0, 1, 0, 1, 0, 3]
  | _ => none

/-- The default note color selector (source lines 582-597): missing
table entry and out-of-range column are the two failure cases; an
out-of-range palette index interpolates the JS undefined value. -/
def colorSelector (keys : Nat) (nt : Note) :
    Except ResolveError String :=
  match presetKeyLayouts keys with
  | none => .error .unsupportedKeys
  | some layout =>
    match layout.get? nt.column with
    | none => .error .invalidColumn
    | some colorKey => .ok (presetColorSchemes.getD colorKey "undefined")

/-- A geometric primitive emitted into the template group. -/
structure Shape where
  x : ℚ
  y : ℚ
  width : ℚ
  height : ℚ
  fill : String
deriving Repr, DecidableEq

/-- The default note emitter (source lines 909-932): always one cap
rectangle centered on the timestamp; for a hold whose end time is
truthy (nonzero), additionally one body rectangle when the residual
height after subtracting the cap height is positive. -/
def createNote (ctx : Context) (nt : Note) :
    Except ResolveError (List Shape) :=
  match colorSelector ctx.beatmap.keys nt with
  | .error e => .error e
  | .ok color =>
    let x := (nt.column : ℚ) * ctx.note.width
    let y := (nt.start - ctx.time.start) * ctx.time.scale
    let noteY := y - ctx.note.height / 2
    let cap : Shape :=
      { x := x, y := noteY, width := ctx.note.width,
        height := ctx.note.height, fill := color }
    match nt.endTime with
    | none => .ok [cap]
    | some e =>
      if e = 0 then
        .ok [cap]
      else
        let lnHeight := (e - nt.start) * ctx.time.scale - ctx.note.height
        if lnHeight > 0 then
          .ok [cap,
            { x := x + (ctx.note.width - ctx.note.bodyWidth) / 2,
              y := y + ctx.note.height / 2,
              width := ctx.note.bodyWidth,
              height := lnHeight,
              fill := ctx.note.bodyColor.getD color }]
        else
          .ok [cap]

/-- The note emission stage of render (source line 861): flatMap of the
note emitter over a note list, aborting at the first thrown error. -/
def notesFrom (ctx : Context) : List Note → Except ResolveError (List Shape)
  | [] => .ok []
  | nt :: rest =>
    match createNote ctx nt with
    | .error e => .error e
    | .ok shapes =>
      match notesFrom ctx rest with
      | .error e => .error e
      | .ok tail => .ok (shapes ++ tail)

/-- All note shapes of one render call. -/
def renderNotes (ctx : Context) : Except ResolveError (List Shape) :=
  notesFrom ctx ctx.beatmap.notes

/-! Concrete inputs used by the concrete theorems and witnesses. -/

/-- A single constant-tempo timing point at 120 bpm, 4/4. -/
def tpBasic : TimingPoint := ⟨0, 120, 4⟩

/-- A four-key chart with no notes and one timing point. -/
def bmFourKeys : Beatmap :=
  { keys := 4, notes := [], timingPoints := [tpBasic] }

/-- A four-key chart with no notes and no timing points. -/
def bmNoTiming : Beatmap :=
  { keys := 4, notes := [], timingPoints := [] }

/-- A one-key chart with no notes and no timing points. -/
def bmOneKey : Beatmap :=
  { keys := 1, notes := [], timingPoints := [] }

/-- Default numeric note options of the source. -/
def noteDefaults : NoteOptions :=
  { width := 20, height := 6, rx := 2, bodyWidth := 10,
    bodyColor := some "#CCCCCC" }

/-- Ratio mode with a small valid target ratio 1/10 over a short
explicit window; the search decrements the count 1 to 0. -/
def optsRatioTiny : Options :=
  { note := noteDefaults
    time := { start := .val 0, stop := .val 0, scale := 1/10 }
    axis := { width := 30 }
    strip := { mode := .ratio, num := some 8, time := some 30000,
               ratio := some (1/10) }
    layout := { margin := (10, 10), finalScale := 1, targetSize := none } }

/-- Minimal ratio-mode configuration where the two candidate ratios are
exactly equidistant from the target: ratios 1 and 4 around target 5/2. -/
def optsRatioTie : Options :=
  { note := { width := 1, height := 1, rx := 0, bodyWidth := 1,
              bodyColor := none }
    time := { start := .val 0, stop := .val 0, scale := 1 }
    axis := { width := 0 }
    strip := { mode := .ratio, num := none, time := none,
               ratio := some (5/2) }
    layout := { margin := (0, 0), finalScale := 1, targetSize := none } }

/-- Ratio-mode configuration where the previous count is strictly
closer: ratios n * n / 4 around target 3/2, found at 3, picked 2. -/
def optsRatioPick : Options :=
  { note := { width := 1, height := 1, rx := 0, bodyWidth := 1,
              bodyColor := none }
    time := { start := .val 0, stop := .val 3, scale := 1 }
    axis := { width := 0 }
    strip := { mode := .ratio, num := none, time := none,
               ratio := some (3/2) }
    layout := { margin := (0, 0), finalScale := 1, targetSize := none } }

/-- Num mode over the explicit window 0..100 with default options. -/
def optsNumWindow : Options :=
  { note := noteDefaults
    time := { start := .val 0, stop := .val 100, scale := 1/10 }
    axis := { width := 30 }
    strip := { mode := .num, num := some 8, time := some 30000,
               ratio := some (3/2) }
    layout := { margin := (10, 10), finalScale := 1, targetSize := none } }

/-- The literal re-resolution of the context produced by optsNumWindow:
explicit start 0, explicit end 160, num mode with 8 strips. -/
def optsNumWindow2 : Options :=
  { optsNumWindow with
    time := { start := .val 0, stop := .val 160, scale := 1/10 } }

/-- Time mode with strip duration 1000 ms over the explicit window
0..0 (padded to 60). -/
def optsTimeSmall : Options :=
  { optsNumWindow with
    strip := { mode := .time, num := some 8, time := some 1000,
               ratio := some (3/2) } }

/-- Num mode with a 100 by 100 target size. -/
def optsTargetFit : Options :=
  { optsNumWindow with
    layout := { margin := (10, 10), finalScale := 1,
                targetSize := some (100, 100) } }

/-- A free-standing context used by the emitter theorems. -/
def ctxFourKeys : Context :=
  { beatmap := bmFourKeys
    note := noteDefaults
    axis := { width := 30 }
    time := { start := 0, stop := 160, scale := 1/10 }
    strip := { num := 8, width := 110, height := 2 }
    margin := (10, 10)
    totalWidth := 900
    totalHeight := 22
    finalScale := 1 }

/-- Decidable equality for Except values, used to evaluate the embedded
pipeline on concrete inputs. -/
instance {ε α : Type} [DecidableEq ε] [DecidableEq α] :
    DecidableEq (Except ε α) := fun x y =>
  match x, y with
  | .error a, .error b =>
    if h : a = b then isTrue (by rw [h]) else isFalse (by simp [h])
  | .ok a, .ok b =>
    if h : a = b then isTrue (by rw [h]) else isFalse (by simp [h])
  | .error _, .ok _ => isFalse (by simp)
  | .ok _, .error _ => isFalse (by simp)

/-! Theorems. -/

/-- C6: for the single timing point at time 0, 120 bpm, meter 4 and the
window 0..4000, the generator returns exactly the list [0, 2000]; the
bar duration is 500 ms per beat times 4 and the timestamp 4000 is
excluded by the strict less-than loop bound. -/
theorem barlines_single_tempo_concrete :
    generateBarLinePositions [tpBasic] 0 4000 = [0, 2000] := by
  have h : generateBarLinePositions [tpBasic] 0 4000 =
      barSegments 0 4000 [tpBasic] := by
    simp [generateBarLinePositions]
  rw [h]
  norm_num [barSegments, segBars, segFuel, barDurOf, tpBasic]

/-- C2: the resolver can return normally with a strip count of zero, in
violation of the one-to-fifty strip-count invariant: in ratio mode with
the valid target ratio 1/10 over a short window, the tie-break
decrements the count from one to zero and the context is returned
without any further check (the JS original then divides by zero and
reports Infinity canvas dimensions). -/
theorem ratio_mode_returns_strip_count_zero :
    (resolveOptions bmFourKeys optsRatioTiny).map (fun c => c.strip.num) =
      .ok 0 := by
  have h1 : resolveStart bmFourKeys optsRatioTiny = .ok 0 := by
    norm_num [resolveStart, bmFourKeys, optsRatioTiny, tpBasic]
  have h2 : resolveEnd0 bmFourKeys optsRatioTiny 0 = 60 := by
    norm_num [resolveEnd0, baseEnd, bmFourKeys, optsRatioTiny, noteDefaults]
  have h3 : resolveStrip bmFourKeys optsRatioTiny 0 60 = .ok (0, 60) := by
    norm_num [resolveStrip, optsRatioTiny, ratioGo, layoutRatio,
      computeLayout, bmFourKeys, noteDefaults]
  have h4 : applyTargetSize optsRatioTiny
      (computeLayout bmFourKeys optsRatioTiny 0 60 0) =
      .ok (1, (10, 10), 20, 20) := by
    norm_num [applyTargetSize, computeLayout, optsRatioTiny, bmFourKeys,
      noteDefaults]
  simp [resolveOptions, h1, h2, h3, h4, Except.map]

/-- C1 counterexample: with target ratio 5/2 exactly halfway between
the candidate ratios 1 (one strip) and 4 (two strips), the search keeps
the larger count 2, while the claim requires the smaller count 1 on
exact equidistance. -/
theorem ratio_tie_prefers_larger_count_cex :
    layoutRatio bmOneKey optsRatioTie 0 1 1 = 1 ∧
    layoutRatio bmOneKey optsRatioTie 0 1 2 = 4 ∧
    (5/2 : ℚ) - 1 = 4 - (5/2 : ℚ) ∧
    (resolveOptions bmOneKey optsRatioTie).map (fun c => c.strip.num) =
      .ok 2 := by
  have h1 : resolveStart bmOneKey optsRatioTie = .ok 0 := by
    norm_num [resolveStart, optsRatioTie]
  have h2 : resolveEnd0 bmOneKey optsRatioTie 0 = 1 := by
    norm_num [resolveEnd0, baseEnd, bmOneKey, optsRatioTie]
  have h3 : resolveStrip bmOneKey optsRatioTie 0 1 = .ok (2, 1) := by
    norm_num [resolveStrip, optsRatioTie, ratioGo, layoutRatio,
      computeLayout, bmOneKey]
  have h4 : applyTargetSize optsRatioTie
      (computeLayout bmOneKey optsRatioTie 0 1 2) =
      .ok (1, (0, 0), 2, 1/2) := by
    norm_num [applyTargetSize, computeLayout, optsRatioTie, bmOneKey]
  refine ⟨?_, ?_, by norm_num, ?_⟩
  · norm_num [layoutRatio, computeLayout, bmOneKey, optsRatioTie]
  · norm_num [layoutRatio, computeLayout, bmOneKey, optsRatioTie]
  · simp [resolveOptions, h1, h2, h3, h4, Except.map]

/-- C5 counterexample: resolving the explicit window 0..100 with eight
strips yields end 160 and strip height 2, but re-resolving with the
explicit values start 0, end 160 and num 8 taken from that context
yields strip height 11/4, because the padding term is added again. -/
theorem reresolve_padding_drift_cex :
    (resolveOptions bmFourKeys optsNumWindow).map
      (fun c => (c.time.start, c.time.stop, c.strip.num, c.strip.height)) =
      .ok (0, 160, 8, 2) ∧
    optsNumWindow2.time.start = .val 0 ∧
    optsNumWindow2.time.stop = .val 160 ∧
    optsNumWindow2.strip.mode = .num ∧
    optsNumWindow2.strip.num = some 8 ∧
    (resolveOptions bmFourKeys optsNumWindow2).map
      (fun c => c.strip.height) = .ok (11/4) ∧
    (11/4 : ℚ) ≠ 2 := by
  have h1 : resolveStart bmFourKeys optsNumWindow = .ok 0 := by
    norm_num [resolveStart, optsNumWindow]
  have h2 : resolveEnd0 bmFourKeys optsNumWindow 0 = 160 := by
    norm_num [resolveEnd0, baseEnd, bmFourKeys, optsNumWindow, noteDefaults]
  have h3 : resolveStrip bmFourKeys optsNumWindow 0 160 = .ok (8, 160) := by
    norm_num [resolveStrip, optsNumWindow]
  have h4 : applyTargetSize optsNumWindow
      (computeLayout bmFourKeys optsNumWindow 0 160 8) =
      .ok (1, (10, 10), 900, 22) := by
    norm_num [applyTargetSize, computeLayout, optsNumWindow, bmFourKeys,
      noteDefaults]
  have g1 : resolveStart bmFourKeys optsNumWindow2 = .ok 0 := by
    norm_num [resolveStart, optsNumWindow2, optsNumWindow]
  have g2 : resolveEnd0 bmFourKeys optsNumWindow2 0 = 220 := by
    norm_num [resolveEnd0, baseEnd, bmFourKeys, optsNumWindow2,
      optsNumWindow, noteDefaults]
  have g3 : resolveStrip bmFourKeys optsNumWindow2 0 220 = .ok (8, 220) := by
    norm_num [resolveStrip, optsNumWindow2, optsNumWindow]
  have g4 : applyTargetSize optsNumWindow2
      (computeLayout bmFourKeys optsNumWindow2 0 220 8) =
      .ok (1, (10, 10), 900, 91/4) := by
    norm_num [applyTargetSize, computeLayout, optsNumWindow2, optsNumWindow,
      bmFourKeys, noteDefaults]
  have hL : (computeLayout bmFourKeys optsNumWindow 0 160 8).stripHeight =
      2 := by
    norm_num [computeLayout, bmFourKeys, optsNumWindow, noteDefaults]
  have gL : (computeLayout bmFourKeys optsNumWindow2 0 220 8).stripHeight =
      11/4 := by
    norm_num [computeLayout, bmFourKeys, optsNumWindow2, optsNumWindow,
      noteDefaults]
  refine ⟨?_, by rfl, by rfl, by rfl, by rfl, ?_, by norm_num⟩
  · simp [resolveOptions, h1, h2, h3, h4, hL, Except.map]
  · simp [resolveOptions, g1, g2, g3, g4, gL, Except.map]

/-- C9 counterexample: in time mode the resolved end is re-expanded to
start plus stripNum times the strip duration, so it does not equal the
base end plus the padding term: here the base end 100 plus padding 60
gives 160, but the resolved end is 1000. -/
theorem time_mode_end_padding_cex :
    resolveEnd0 bmFourKeys optsTimeSmall 0 = 160 ∧
    (resolveOptions bmFourKeys optsTimeSmall).map (fun c => c.time.stop) =
      .ok 1000 ∧
    (1000 : ℚ) ≠ 160 := by
  have h2 : resolveEnd0 bmFourKeys optsTimeSmall 0 = 160 := by
    norm_num [resolveEnd0, baseEnd, bmFourKeys, optsTimeSmall,
      optsNumWindow, noteDefaults]
  have h1 : resolveStart bmFourKeys optsTimeSmall = .ok 0 := by
    norm_num [resolveStart, optsTimeSmall, optsNumWindow]
  have h3 : resolveStrip bmFourKeys optsTimeSmall 0 160 = .ok (1, 1000) := by
    have hc : ⌈(4 : ℚ) / 25⌉ = 1 := by
      rw [Int.ceil_eq_iff]
      norm_num
    have hmin : ((1 : ℤ) ⊓ 50) = 1 := by norm_num
    norm_num [resolveStrip, optsTimeSmall, optsNumWindow, hc, hmin]
  have h4 : applyTargetSize optsTimeSmall
      (computeLayout bmFourKeys optsTimeSmall 0 1000 1) =
      .ok (1, (10, 10), 130, 120) := by
    norm_num [applyTargetSize, computeLayout, optsTimeSmall, optsNumWindow,
      bmFourKeys, noteDefaults]
  exact ⟨h2, by simp [resolveOptions, h1, h2, h3, h4, Except.map],
    by norm_num⟩

/-- C10 counterexample: a hold whose end timestamp is exactly 0 (and
start -100) has positive residual body height 4, yet the emitter
returns only the cap rectangle, because the JS truthiness test on
note.end treats the value 0 as absent. -/
theorem zero_end_hold_body_dropped_cex :
    0 < ((0 : ℚ) - (-100)) * ctxFourKeys.time.scale - ctxFourKeys.note.height ∧
    (createNote ctxFourKeys ⟨0, -100, some 0⟩).map List.length = .ok 1 := by
  constructor
  · norm_num [ctxFourKeys, noteDefaults]
  · have hc : colorSelector ctxFourKeys.beatmap.keys ⟨0, -100, some 0⟩ =
        .ok "#FFFFFF" := by
      norm_num [colorSelector, presetKeyLayouts, presetColorSchemes,
        ctxFourKeys, bmFourKeys]
    simp [createNote, hc, Except.map]

/-- Fully automatic window resolution on a chart without timing points
(strip settings are irrelevant to the start failure). -/
def optsAutoBoth : Options :=
  { optsNumWindow with
    time := { start := .auto, stop := .auto, scale := 1/10 } }

/-- The strip-mode dispatch never reports the empty-timing-data
failure: that failure belongs to the start resolution alone. -/
theorem resolveStrip_not_empty (bm : Beatmap) (opts : Options)
    (s e0 : ℚ) :
    resolveStrip bm opts s e0 ≠ .error .emptyTimingData := by
  unfold resolveStrip
  cases opts.strip.mode with
  | num =>
    cases opts.strip.num with
    | none => simp
    | some n =>
      dsimp only
      split_ifs <;> simp
  | time =>
    cases opts.strip.time with
    | none => simp
    | some d =>
      dsimp only
      split_ifs <;> simp
  | ratio =>
    cases opts.strip.ratio with
    | none => simp
    | some r =>
      dsimp only
      split_ifs <;> simp

/-- The target-size fit never reports the empty-timing-data failure. -/
theorem applyTargetSize_not_empty (opts : Options) (L : LayoutDims) :
    applyTargetSize opts L ≠ .error .emptyTimingData := by
  unfold applyTargetSize
  cases opts.layout.targetSize with
  | none => simp
  | some p =>
    obtain ⟨tw, th⟩ := p
    dsimp only
    split_ifs <;> simp

/-- C8: with an empty timing-point list and fully automatic window
bounds the resolver fails synchronously with the empty-timing-data
error and never returns a context; conversely, with an explicit numeric
start the empty-timing-data error can never occur. -/
theorem empty_timing_auto_errors :
    (∀ bm opts, bm.timingPoints = [] → opts.time.start = .auto →
      opts.time.stop = .auto →
      resolveOptions bm opts = .error .emptyTimingData) ∧
    (∀ bm opts (s : ℚ), opts.time.start = .val s →
      resolveOptions bm opts ≠ .error .emptyTimingData) := by
  constructor
  · intro bm opts h1 h2 _
    simp [resolveOptions, resolveStart, h1, h2]
  · intro bm opts s hs
    have h : resolveStart bm opts = .ok s := by simp [resolveStart, hs]
    simp only [resolveOptions, h]
    cases hstrip : resolveStrip bm opts s (resolveEnd0 bm opts s) with
    | error e =>
      have hne := resolveStrip_not_empty bm opts s (resolveEnd0 bm opts s)
      rw [hstrip] at hne
      simpa using hne
    | ok p =>
      obtain ⟨n, stop⟩ := p
      simp only []
      cases hfit : applyTargetSize opts (computeLayout bm opts s stop n) with
      | error e =>
        have hne := applyTargetSize_not_empty opts
          (computeLayout bm opts s stop n)
        rw [hfit] at hne
        simpa using hne
      | ok q =>
        obtain ⟨f, m, totW, totH⟩ := q
        simp

/-- C8 witness: both directions at concrete inputs. -/
theorem empty_timing_auto_errors_witness :
    resolveOptions bmNoTiming optsAutoBoth = .error .emptyTimingData ∧
    resolveOptions bmNoTiming optsNumWindow ≠ .error .emptyTimingData :=
  ⟨empty_timing_auto_errors.1 bmNoTiming optsAutoBoth rfl rfl rfl,
   empty_timing_auto_errors.2 bmNoTiming optsNumWindow 0 rfl⟩

/-- C4: in time mode a missing strip duration and a non-positive strip
duration are configuration errors; for a positive duration d, whenever
the resolver returns a context the strip count is the ceiling of the
padded window length over d clamped to at most 50 (and at least 1), the
window end is re-expanded to start plus stripCount times d, and every
strip covers exactly duration d (strip height d times the time scale). -/
theorem time_mode_strip_count (bm : Beatmap) (opts : Options) (s : ℚ)
    (hs : resolveStart bm opts = .ok s) (hm : opts.strip.mode = .time) :
    (opts.strip.time = none →
      resolveOptions bm opts = .error .stripTimeMissing) ∧
    (∀ d : ℚ, opts.strip.time = some d → d ≤ 0 →
      resolveOptions bm opts = .error .stripTimeNonPositive) ∧
    (∀ (d : ℚ) (ctx : Context), opts.strip.time = some d → 0 < d →
      resolveOptions bm opts = .ok ctx →
      ctx.strip.num = ((min ⌈(resolveEnd0 bm opts s - s) / d⌉ 50 : ℤ) : ℚ) ∧
      (1 : ℤ) ≤ min ⌈(resolveEnd0 bm opts s - s) / d⌉ 50 ∧
      ctx.time.stop = s + ctx.strip.num * d ∧
      ctx.strip.height = d * opts.time.scale) := by
  refine ⟨?_, ?_, ?_⟩
  · intro hnone
    simp [resolveOptions, hs, resolveStrip, hm, hnone]
  · intro d hd hdle
    simp [resolveOptions, hs, resolveStrip, hm, hd, hdle]
  · intro d ctx hd hdpos hok
    set nz : ℤ := min ⌈(resolveEnd0 bm opts s - s) / d⌉ 50 with hnz
    by_cases hle : nz ≤ 0
    · have : resolveOptions bm opts = .error .stripNumZero := by
        simp [resolveOptions, hs, resolveStrip, hm, hd,
          not_le.mpr hdpos, ← hnz, hle]
      rw [this] at hok
      simp at hok
    · have h1 : (1 : ℤ) ≤ nz := by omega
      have hstrip : resolveStrip bm opts s (resolveEnd0 bm opts s) =
          .ok ((nz : ℚ), s + (nz : ℚ) * d) := by
        simp [resolveStrip, hm, hd, not_le.mpr hdpos, ← hnz, hle]
      cases hfit : applyTargetSize opts
          (computeLayout bm opts s (s + (nz : ℚ) * d) (nz : ℚ)) with
      | error e =>
        have : resolveOptions bm opts = .error e := by
          simp [resolveOptions, hs, hstrip, hfit]
        rw [this] at hok
        simp at hok
      | ok q =>
        obtain ⟨f, m, totW, totH⟩ := q
        have hres : resolveOptions bm opts = .ok
            { beatmap := bm
              note := opts.note
              axis := opts.axis
              time := { start := s, stop := s + (nz : ℚ) * d,
                        scale := opts.time.scale }
              strip := { num := (nz : ℚ)
                         width := (computeLayout bm opts s
                           (s + (nz : ℚ) * d) (nz : ℚ)).stripWidth
                         height := (computeLayout bm opts s
                           (s + (nz : ℚ) * d) (nz : ℚ)).stripHeight }
              margin := m
              totalWidth := totW
              totalHeight := totH
              finalScale := f } := by
          simp [resolveOptions, hs, hstrip, hfit]
        rw [hres] at hok
        obtain rfl : _ = ctx := (Except.ok.injEq _ _).mp hok
        have hne : ((nz : ℚ)) ≠ 0 := by
          exact_mod_cast (by omega : nz ≠ 0)
        refine ⟨rfl, h1, rfl, ?_⟩
        show (computeLayout bm opts s (s + (nz : ℚ) * d)
          (nz : ℚ)).stripHeight = d * opts.time.scale
        simp only [computeLayout]
        have harg : s + (nz : ℚ) * d - s = (nz : ℚ) * d := by ring
        rw [harg, mul_comm ((nz : ℚ)) d, mul_right_comm, mul_div_assoc,
          div_self hne, mul_one]

/-- C4 witness: the time-mode theorem applied to the concrete chart and
options with strip duration 1000 over the padded window 0..160. -/
theorem time_mode_strip_count_witness :
    (0 : ℚ) < 1000 ∧
    ∃ ctx, resolveOptions bmFourKeys optsTimeSmall = .ok ctx ∧
      ctx.strip.num =
        ((min ⌈(resolveEnd0 bmFourKeys optsTimeSmall 0 - 0) / 1000⌉ 50 :
          ℤ) : ℚ) ∧
      ctx.time.stop = 0 + ctx.strip.num * 1000 ∧
      ctx.strip.height = 1000 * optsTimeSmall.time.scale := by
  obtain ⟨c, hc⟩ : ∃ c, resolveOptions bmFourKeys optsTimeSmall = .ok c := by
    have h1 : resolveStart bmFourKeys optsTimeSmall = .ok 0 := by
      norm_num [resolveStart, optsTimeSmall, optsNumWindow]
    have h2 : resolveEnd0 bmFourKeys optsTimeSmall 0 = 160 := by
      norm_num [resolveEnd0, baseEnd, bmFourKeys, optsTimeSmall,
        optsNumWindow, noteDefaults]
    have h3 : resolveStrip bmFourKeys optsTimeSmall 0 160 =
        .ok (1, 1000) := by
      have hcl : ⌈(4 : ℚ) / 25⌉ = 1 := by
        rw [Int.ceil_eq_iff]
        norm_num
      have hmin : ((1 : ℤ) ⊓ 50) = 1 := by norm_num
      norm_num [resolveStrip, optsTimeSmall, optsNumWindow, hcl, hmin]
    have h4 : applyTargetSize optsTimeSmall
        (computeLayout bmFourKeys optsTimeSmall 0 1000 1) =
        .ok (1, (10, 10), 130, 120) := by
      norm_num [applyTargetSize, computeLayout, optsTimeSmall,
        optsNumWindow, bmFourKeys, noteDefaults]
    refine ⟨{ beatmap := bmFourKeys
              note := optsTimeSmall.note
              axis := optsTimeSmall.axis
              time := { start := 0, stop := 1000,
                        scale := optsTimeSmall.time.scale }
              strip := { num := 1
                         width := (computeLayout bmFourKeys optsTimeSmall
                           0 1000 1).stripWidth
                         height := (computeLayout bmFourKeys optsTimeSmall
                           0 1000 1).stripHeight }
              margin := (10, 10)
              totalWidth := 130
              totalHeight := 120
              finalScale := 1 }, ?_⟩
    simp [resolveOptions, h1, h2, h3, h4]
  have h := (time_mode_strip_count bmFourKeys optsTimeSmall 0
    (by norm_num [resolveStart, optsTimeSmall, optsNumWindow]) rfl).2.2
    1000 c rfl (by norm_num) hc
  exact ⟨by norm_num, c, hc, h.1, h.2.2.1, h.2.2.2⟩

/-- Inversion of a successful resolver run into its three stages and
the exact shape of the returned context. -/
theorem resolveOptions_inv (bm : Beatmap) (opts : Options) (ctx : Context)
    (h : resolveOptions bm opts = .ok ctx) :
    ∃ s n stop f m totW totH,
      resolveStart bm opts = .ok s ∧
      resolveStrip bm opts s (resolveEnd0 bm opts s) = .ok (n, stop) ∧
      applyTargetSize opts (computeLayout bm opts s stop n) =
        .ok (f, m, totW, totH) ∧
      ctx = { beatmap := bm
              note := opts.note
              axis := opts.axis
              time := { start := s, stop := stop, scale := opts.time.scale }
              strip := { num := n
                         width := (computeLayout bm opts s stop n).stripWidth
                         height :=
                           (computeLayout bm opts s stop n).stripHeight }
              margin := m
              totalWidth := totW
              totalHeight := totH
              finalScale := f } := by
  unfold resolveOptions at h
  cases hs : resolveStart bm opts with
  | error e =>
    simp only [hs] at h
    exact Except.noConfusion h
  | ok s =>
    simp only [hs] at h
    cases hstrip : resolveStrip bm opts s (resolveEnd0 bm opts s) with
    | error e =>
      simp only [hstrip] at h
      exact Except.noConfusion h
    | ok p =>
      obtain ⟨n, stop⟩ := p
      simp only [hstrip] at h
      cases hfit : applyTargetSize opts (computeLayout bm opts s stop n) with
      | error e =>
        simp only [hfit] at h
        exact Except.noConfusion h
      | ok q =>
        obtain ⟨f, m, totW, totH⟩ := q
        simp only [hfit, Except.ok.injEq] at h
        exact ⟨s, n, stop, f, m, totW, totH, rfl, hstrip, hfit, h.symm⟩

/-- In num and ratio modes the strip-mode dispatch leaves the window
end unchanged. -/
theorem resolveStrip_stop_eq (bm : Beatmap) (opts : Options)
    (s e0 n stop : ℚ)
    (hm : opts.strip.mode = .num ∨ opts.strip.mode = .ratio)
    (h : resolveStrip bm opts s e0 = .ok (n, stop)) : stop = e0 := by
  rcases hm with hm | hm
  · unfold resolveStrip at h
    rw [hm] at h
    cases hnum : opts.strip.num with
    | none =>
      simp only [hnum] at h
      exact Except.noConfusion h
    | some v =>
      simp only [hnum] at h
      split_ifs at h
      simp only [Except.ok.injEq, Prod.mk.injEq] at h
      exact h.2.symm
  · unfold resolveStrip at h
    rw [hm] at h
    cases hrat : opts.strip.ratio with
    | none =>
      simp only [hrat] at h
      exact Except.noConfusion h
    | some r =>
      simp only [hrat] at h
      split_ifs at h
      simp only [Except.ok.injEq, Prod.mk.injEq] at h
      exact h.2.symm

/-- C9 (amended): in num and ratio modes the resolved window end equals
the base end (the explicit end when given, else the maximal note end or
start with the resolved start as floor) plus the unconditional padding
term note.height / time.scale; in time mode the same padded value is
the input to the strip computation but the final end is re-expanded. -/
theorem end_equals_base_plus_padding (bm : Beatmap) (opts : Options)
    (s : ℚ) (ctx : Context)
    (hs : resolveStart bm opts = .ok s)
    (hm : opts.strip.mode = .num ∨ opts.strip.mode = .ratio)
    (hok : resolveOptions bm opts = .ok ctx) :
    ctx.time.stop = baseEnd bm opts s +
      opts.note.height / opts.time.scale := by
  obtain ⟨s', n, stop, f, m, totW, totH, hs', hstrip, hfit, hctx⟩ :=
    resolveOptions_inv bm opts ctx hok
  rw [hs] at hs'
  obtain rfl : s = s' := (Except.ok.injEq _ _).mp hs'
  have hstop : stop = resolveEnd0 bm opts s :=
    resolveStrip_stop_eq bm opts s (resolveEnd0 bm opts s) n stop hm hstrip
  rw [hctx]
  show stop = baseEnd bm opts s + opts.note.height / opts.time.scale
  rw [hstop]
  rfl

/-- C9 witness: the amended end formula at the concrete num-mode
configuration with explicit window 0..100 (base end 100, padding 60). -/
theorem end_equals_base_plus_padding_witness :
    ∃ ctx, resolveOptions bmFourKeys optsNumWindow = .ok ctx ∧
      ctx.time.stop = baseEnd bmFourKeys optsNumWindow 0 +
        optsNumWindow.note.height / optsNumWindow.time.scale := by
  obtain ⟨c, hc⟩ : ∃ c, resolveOptions bmFourKeys optsNumWindow = .ok c := by
    have h1 : resolveStart bmFourKeys optsNumWindow = .ok 0 := by
      norm_num [resolveStart, optsNumWindow]
    have h2 : resolveEnd0 bmFourKeys optsNumWindow 0 = 160 := by
      norm_num [resolveEnd0, baseEnd, bmFourKeys, optsNumWindow,
        noteDefaults]
    have h3 : resolveStrip bmFourKeys optsNumWindow 0 160 =
        .ok (8, 160) := by
      norm_num [resolveStrip, optsNumWindow]
    have h4 : applyTargetSize optsNumWindow
        (computeLayout bmFourKeys optsNumWindow 0 160 8) =
        .ok (1, (10, 10), 900, 22) := by
      norm_num [applyTargetSize, computeLayout, optsNumWindow, bmFourKeys,
        noteDefaults]
    refine ⟨{ beatmap := bmFourKeys
              note := optsNumWindow.note
              axis := optsNumWindow.axis
              time := { start := 0, stop := 160,
                        scale := optsNumWindow.time.scale }
              strip := { num := 8
                         width := (computeLayout bmFourKeys optsNumWindow
                           0 160 8).stripWidth
                         height := (computeLayout bmFourKeys optsNumWindow
                           0 160 8).stripHeight }
              margin := (10, 10)
              totalWidth := 900
              totalHeight := 22
              finalScale := 1 }, ?_⟩
    simp [resolveOptions, h1, h2, h3, h4]
  exact ⟨c, hc, end_equals_base_plus_padding bmFourKeys optsNumWindow 0 c
    (by norm_num [resolveStart, optsNumWindow]) (Or.inl rfl) hc⟩

/-- The explicit re-resolution options of the idempotence scenario:
explicit start and pre-padding end taken from a resolved context,
num mode with the resolved strip count, all other options unchanged. -/
def requeryOptions (opts : Options) (s e n : ℚ) : Options :=
  { opts with
    time := { start := .val s
              stop := .val (e - opts.note.height / opts.time.scale)
              scale := opts.time.scale }
    strip := { mode := .num
               num := some n
               time := opts.strip.time
               ratio := opts.strip.ratio } }

/-- C5 (amended): re-resolving a resolved context through the resolver
with explicit start, explicit end equal to the resolved end minus the
padding term, and num mode with the resolved strip count (when that
count is in the valid range 1..50) returns the identical context: same
window, strip width and height, margins, totals and final scale.  The
subtraction of the padding term is forced because the resolver adds the
padding unconditionally on every call. -/
theorem reresolve_explicit_geometry_eq (bm : Beatmap) (opts : Options)
    (ctx : Context)
    (hok : resolveOptions bm opts = .ok ctx)
    (hn1 : 0 < ctx.strip.num) (hn50 : ctx.strip.num ≤ 50) :
    resolveOptions bm
      (requeryOptions opts ctx.time.start ctx.time.stop ctx.strip.num) =
      .ok ctx := by
  obtain ⟨s, n, stop, f, m, totW, totH, hs, hstrip, hfit, hctx⟩ :=
    resolveOptions_inv bm opts ctx hok
  subst hctx
  simp only at hn1 hn50
  set opts2 := requeryOptions opts s stop n with hopts2
  have hs2 : resolveStart bm opts2 = .ok s := by
    simp [hopts2, requeryOptions, resolveStart]
  have hend2 : resolveEnd0 bm opts2 s = stop := by
    simp only [hopts2, requeryOptions, resolveEnd0, baseEnd]
    ring
  have hstrip2 : resolveStrip bm opts2 s stop = .ok (n, stop) := by
    simp only [hopts2, requeryOptions, resolveStrip]
    rw [if_neg]
    push_neg
    exact ⟨hn1, hn50⟩
  have hL : computeLayout bm opts2 s stop n =
      computeLayout bm opts s stop n := rfl
  have hfit2 : applyTargetSize opts2 (computeLayout bm opts s stop n) =
      .ok (f, m, totW, totH) := hfit
  unfold resolveOptions
  simp only [hs2, hend2, hstrip2, hL, hfit2]
  rfl

/-- The context produced by the num-mode resolution of the explicit
window 0..100 with eight strips. -/
def ctxNumWindow : Context :=
  { beatmap := bmFourKeys
    note := noteDefaults
    axis := { width := 30 }
    time := { start := 0, stop := 160, scale := 1/10 }
    strip := { num := 8, width := 110, height := 2 }
    margin := (10, 10)
    totalWidth := 900
    totalHeight := 22
    finalScale := 1 }

/-- Concrete resolution used by several witnesses. -/
theorem resolveOptions_numWindow :
    resolveOptions bmFourKeys optsNumWindow = .ok ctxNumWindow := by
  have h1 : resolveStart bmFourKeys optsNumWindow = .ok 0 := by
    norm_num [resolveStart, optsNumWindow]
  have h2 : resolveEnd0 bmFourKeys optsNumWindow 0 = 160 := by
    norm_num [resolveEnd0, baseEnd, bmFourKeys, optsNumWindow, noteDefaults]
  have h3 : resolveStrip bmFourKeys optsNumWindow 0 160 = .ok (8, 160) := by
    norm_num [resolveStrip, optsNumWindow]
  have h4 : applyTargetSize optsNumWindow
      (computeLayout bmFourKeys optsNumWindow 0 160 8) =
      .ok (1, (10, 10), 900, 22) := by
    norm_num [applyTargetSize, computeLayout, optsNumWindow, bmFourKeys,
      noteDefaults]
  have hW : (computeLayout bmFourKeys optsNumWindow 0 160 8).stripWidth =
      110 := by
    norm_num [computeLayout, bmFourKeys, optsNumWindow, noteDefaults]
  have hH : (computeLayout bmFourKeys optsNumWindow 0 160 8).stripHeight =
      2 := by
    norm_num [computeLayout, bmFourKeys, optsNumWindow, noteDefaults]
  simp only [resolveOptions, h1, h2, h3, h4, hW, hH]
  rfl

/-- C5 witness: the amended idempotence theorem applied to the concrete
num-mode resolution. -/
theorem reresolve_explicit_geometry_eq_witness :
    0 < ctxNumWindow.strip.num ∧
    resolveOptions bmFourKeys
      (requeryOptions optsNumWindow ctxNumWindow.time.start
        ctxNumWindow.time.stop ctxNumWindow.strip.num) =
      .ok ctxNumWindow := by
  refine ⟨by norm_num [ctxNumWindow], ?_⟩
  exact reresolve_explicit_geometry_eq bmFourKeys optsNumWindow ctxNumWindow
    resolveOptions_numWindow (by norm_num [ctxNumWindow])
    (by norm_num [ctxNumWindow])

/-- Per-note totality of the emitter: a note whose column is valid for
the chart key count always yields its cap rectangle, plus the body
rectangle exactly for a nonzero hold end with positive residual
height; the position of the note inside or outside the window plays no
role. -/
theorem createNote_ok (ctx : Context) (nt : Note) (layout : List Nat)
    (hl : presetKeyLayouts ctx.beatmap.keys = some layout)
    (hc : nt.column < layout.length) :
    ∃ shapes, createNote ctx nt = .ok shapes ∧
      shapes.length = (match nt.endTime with
        | none => 1
        | some e =>
          if e ≠ 0 ∧ 0 < (e - nt.start) * ctx.time.scale - ctx.note.height
          then 2 else 1) := by
  have hget : ∃ k, layout.get? nt.column = some k := by
    rw [List.get?_eq_get hc]
    exact ⟨_, rfl⟩
  obtain ⟨k, hk⟩ := hget
  have hcolor : colorSelector ctx.beatmap.keys nt =
      .ok (presetColorSchemes.getD k "undefined") := by
    simp only [colorSelector, hl, hk]
  set color := presetColorSchemes.getD k "undefined" with hcdef
  set cap : Shape :=
    { x := (nt.column : ℚ) * ctx.note.width
      y := (nt.start - ctx.time.start) * ctx.time.scale -
        ctx.note.height / 2
      width := ctx.note.width
      height := ctx.note.height
      fill := color } with hcap
  cases he : nt.endTime with
  | none =>
    have hcn : createNote ctx nt = .ok [cap] := by
      simp only [createNote, hcolor, he, hcap]
    exact ⟨[cap], hcn, by simp [he]⟩
  | some e =>
    by_cases he0 : e = 0
    · have hcn : createNote ctx nt = .ok [cap] := by
        simp only [createNote, hcolor, he, hcap, if_pos he0]
      exact ⟨[cap], hcn, by simp [he, he0]⟩
    · by_cases hh : 0 < (e - nt.start) * ctx.time.scale - ctx.note.height
      · have hcn : createNote ctx nt = .ok [cap,
            { x := (nt.column : ℚ) * ctx.note.width +
                (ctx.note.width - ctx.note.bodyWidth) / 2
              y := (nt.start - ctx.time.start) * ctx.time.scale +
                ctx.note.height / 2
              width := ctx.note.bodyWidth
              height := (e - nt.start) * ctx.time.scale - ctx.note.height
              fill := ctx.note.bodyColor.getD color }] := by
          simp only [createNote, hcolor, he, hcap, if_neg he0]
          rw [if_pos hh]
        exact ⟨_, hcn, by simp [he, he0, hh]⟩
      · have hcn : createNote ctx nt = .ok [cap] := by
          simp only [createNote, hcolor, he, hcap, if_neg he0]
          rw [if_neg hh]
        exact ⟨[cap], hcn, by simp [he, he0, hh]⟩

/-- Totality of the emission stage over a note list with valid
columns: the emitted shape count is the sum of the per-note counts and
no note is dropped. -/
theorem notesFrom_ok (ctx : Context) :
    ∀ l : List Note,
      (∀ nt ∈ l, ∃ layout,
        presetKeyLayouts ctx.beatmap.keys = some layout ∧
        nt.column < layout.length) →
      ∃ out, notesFrom ctx l = .ok out ∧
        out.length = (l.map (fun nt => match nt.endTime with
          | none => 1
          | some e =>
            if e ≠ 0 ∧ 0 < (e - nt.start) * ctx.time.scale - ctx.note.height
            then 2 else 1)).sum
  | [] => fun _ => ⟨[], rfl, rfl⟩
  | nt :: rest => fun h => by
    obtain ⟨layout, hl, hc⟩ := h nt (List.mem_cons_self nt rest)
    obtain ⟨shapes, hsh, hlen⟩ := createNote_ok ctx nt layout hl hc
    obtain ⟨tail, htl, htlen⟩ :=
      notesFrom_ok ctx rest (fun x hx => h x (List.mem_cons_of_mem nt hx))
    refine ⟨shapes ++ tail, ?_, ?_⟩
    · simp only [notesFrom, hsh, htl]
    · simp [hlen, htlen]

/-- C10 (amended): the note emitter is total and performs no window
culling: when every note column is valid for the chart key count, the
emission stage succeeds and emits, for every note of the chart, one cap
rectangle, plus one body rectangle exactly when the note has a nonzero
end timestamp whose residual body height (end minus start, scaled,
minus the cap height) is positive; notes before the window start or
after the window end are emitted all the same.  The nonzero-end proviso
is forced by the JS truthiness test on note.end. -/
theorem note_emission_total (ctx : Context)
    (h : ∀ nt ∈ ctx.beatmap.notes, ∃ layout,
      presetKeyLayouts ctx.beatmap.keys = some layout ∧
      nt.column < layout.length) :
    ∃ out, renderNotes ctx = .ok out ∧
      out.length = (ctx.beatmap.notes.map (fun nt =>
        match nt.endTime with
        | none => 1
        | some e =>
          if e ≠ 0 ∧ 0 < (e - nt.start) * ctx.time.scale - ctx.note.height
          then 2 else 1)).sum :=
  notesFrom_ok ctx ctx.beatmap.notes h

/-- A chart containing a tap far beyond the window end, a hold inside
the window, and a tap before the window start. -/
def bmMixedNotes : Beatmap :=
  { keys := 4
    notes := [⟨0, 100000, none⟩, ⟨1, 1000, some 2000⟩, ⟨2, -500, none⟩]
    timingPoints := [tpBasic] }

/-- The four-key context over the mixed chart. -/
def ctxMixedNotes : Context :=
  { ctxFourKeys with beatmap := bmMixedNotes }

/-- C10 witness: the emission theorem applied to the mixed chart whose
first and third notes lie outside the resolved window. -/
theorem note_emission_total_witness :
    ∃ out, renderNotes ctxMixedNotes = .ok out ∧
      out.length = (ctxMixedNotes.beatmap.notes.map (fun nt =>
        match nt.endTime with
        | none => 1
        | some e =>
          if e ≠ 0 ∧ 0 < (e - nt.start) * ctxMixedNotes.time.scale -
            ctxMixedNotes.note.height
          then 2 else 1)).sum := by
  apply note_emission_total ctxMixedNotes
  intro nt hnt
  refine ⟨[0, 1, 1, 0], rfl, ?_⟩
  have hmem : nt = (⟨0, 100000, none⟩ : Note) ∨
      nt = (⟨1, 1000, some 2000⟩ : Note) ∨
      nt = (⟨2, -500, none⟩ : Note) := by
    simpa [ctxMixedNotes, bmMixedNotes, ctxFourKeys] using hnt
  rcases hmem with rfl | rfl | rfl <;> norm_num

/-- The bar duration is positive for a positive bpm and a meter of at
least one. -/
theorem barDurOf_pos (tp : TimingPoint) (h1 : 0 < tp.bpm)
    (h2 : 1 ≤ tp.meter) : 0 < barDurOf tp := by
  unfold barDurOf
  exact mul_pos (div_pos (by norm_num) h1) (lt_of_lt_of_le one_pos h2)

/-- Properties of the inner stepping loop for a positive bar duration:
its output is strictly increasing, bounded by the window and the regime
bound, and bounded below by the loop entry time. -/
theorem segBars_spec (barDur nextTime endT start : ℚ) (hd : 0 < barDur) :
    ∀ (fuel : Nat) (t : ℚ),
      List.Pairwise (· < ·) (segBars barDur nextTime endT start fuel t) ∧
      ∀ x ∈ segBars barDur nextTime endT start fuel t,
        start ≤ x ∧ x ≤ endT ∧ x < nextTime ∧ t ≤ x := by
  intro fuel
  induction fuel with
  | zero => intro t; simp [segBars]
  | succ fuel IH =>
    intro t
    obtain ⟨IHp, IHm⟩ := IH (t + barDur)
    by_cases hcond : t < nextTime ∧ t ≤ endT
    · simp only [segBars, if_pos hcond]
      by_cases hst : start ≤ t
      · rw [if_pos (show t ≥ start from hst), List.singleton_append]
        constructor
        · exact List.pairwise_cons.mpr
            ⟨fun x hx => by have := (IHm x hx).2.2.2; linarith, IHp⟩
        · intro x hx
          rcases List.mem_cons.mp hx with rfl | hx2
          · exact ⟨hst, hcond.2, hcond.1, le_refl x⟩
          · obtain ⟨a, b, c, d⟩ := IHm x hx2
            exact ⟨a, b, c, by linarith⟩
      · rw [if_neg (show ¬ t ≥ start from hst), List.nil_append]
        refine ⟨IHp, fun x hx => ?_⟩
        obtain ⟨a, b, c, d⟩ := IHm x hx
        exact ⟨a, b, c, by linarith⟩
    · simp [segBars, if_neg hcond]

/-- Properties of the per-regime concatenation over a list of timing
points sorted by time with positive bar durations: strictly increasing
output, window bounds, and a lower bound transported from any lower
bound of the points themselves. -/
theorem barSegments_spec (s e : ℚ) :
    ∀ l : List TimingPoint,
      List.Pairwise (fun a b => a.time ≤ b.time) l →
      (∀ tp ∈ l, 0 < barDurOf tp) →
      List.Pairwise (· < ·) (barSegments s e l) ∧
      (∀ x ∈ barSegments s e l, s ≤ x ∧ x ≤ e) ∧
      (∀ lb : ℚ, (∀ tp ∈ l, lb ≤ tp.time) →
        ∀ x ∈ barSegments s e l, lb ≤ x)
  | [] => by simp [barSegments]
  | tp :: rest => fun hsort hpos => by
    have hdur : 0 < barDurOf tp := hpos tp (List.mem_cons_self tp rest)
    cases rest with
    | nil =>
      obtain ⟨hp, hm⟩ :=
        segBars_spec (barDurOf tp) e e s hdur (segFuel tp e) tp.time
      simp only [barSegments, List.append_nil]
      refine ⟨hp, fun x hx => ⟨(hm x hx).1, (hm x hx).2.1⟩,
        fun lb hlb x hx => ?_⟩
      exact le_trans (hlb tp (List.mem_cons_self tp [])) (hm x hx).2.2.2
    | cons tp2 rest2 =>
      obtain ⟨hp, hm⟩ :=
        segBars_spec (barDurOf tp) tp2.time e s hdur (segFuel tp e) tp.time
      have htail : List.Pairwise (fun a b => a.time ≤ b.time)
          (tp2 :: rest2) := (List.pairwise_cons.mp hsort).2
      obtain ⟨IH1, IH2, IH3⟩ := barSegments_spec s e (tp2 :: rest2) htail
        (fun tp2 h => hpos tp2 (List.mem_cons_of_mem tp h))
      have hlow : ∀ y ∈ barSegments s e (tp2 :: rest2), tp2.time ≤ y := by
        apply IH3 tp2.time
        intro tp3 h3
        rcases List.mem_cons.mp h3 with rfl | h4
        · exact le_refl _
        · exact (List.pairwise_cons.mp htail).1 tp3 h4
      constructor
      · rw [show barSegments s e (tp :: tp2 :: rest2) =
            segBars (barDurOf tp) tp2.time e s (segFuel tp e) tp.time ++
              barSegments s e (tp2 :: rest2) from rfl]
        refine List.pairwise_append.mpr ⟨hp, IH1, fun x hx y hy => ?_⟩
        exact lt_of_lt_of_le (hm x hx).2.2.1 (hlow y hy)
      constructor
      · intro x hx
        rcases List.mem_append.mp hx with hx1 | hx2
        · exact ⟨(hm x hx1).1, (hm x hx1).2.1⟩
        · exact IH2 x hx2
      · intro lb hlb x hx
        rcases List.mem_append.mp hx with hx1 | hx2
        · exact le_trans (hlb tp (List.mem_cons_self tp _)) (hm x hx1).2.2.2
        · exact IH3 lb
            (fun tp3 h3 => hlb tp3 (List.mem_cons_of_mem tp h3)) x hx2

/-- C7: for timing points with positive bpm and meter at least one, and
a window start at most the window end, the generated bar-line sequence
is strictly increasing (hence duplicate-free, across regime boundaries
and under shared timestamps) and every emitted timestamp lies in the
closed window. -/
theorem barlines_sorted_and_bounded (tps : List TimingPoint) (s e : ℚ)
    (hpos : ∀ tp ∈ tps, 0 < tp.bpm ∧ 1 ≤ tp.meter) (hse : s ≤ e) :
    List.Pairwise (· < ·) (generateBarLinePositions tps s e) ∧
    ∀ x ∈ generateBarLinePositions tps s e, s ≤ x ∧ x ≤ e := by
  have hsorted : List.Pairwise (fun a b : TimingPoint => a.time ≤ b.time)
      (tps.mergeSort (fun a b => decide (a.time ≤ b.time))) := by
    have h := @List.sorted_mergeSort TimingPoint
      (fun a b => decide (a.time ≤ b.time))
      (fun a b c hab hbc => by
        simp only [decide_eq_true_eq] at hab hbc ⊢
        exact le_trans hab hbc)
      (fun a b => by
        simp only [Bool.or_eq_true, decide_eq_true_eq]
        exact le_total a.time b.time)
      tps
    exact h.imp (fun hab => by simpa using hab)
  have hpos2 : ∀ tp ∈ tps.mergeSort (fun a b => decide (a.time ≤ b.time)),
      0 < barDurOf tp := by
    intro tp h
    have hmem : tp ∈ tps := List.mem_mergeSort.mp h
    exact barDurOf_pos tp (hpos tp hmem).1 (hpos tp hmem).2
  obtain ⟨h1, h2, _⟩ := barSegments_spec s e
    (tps.mergeSort (fun a b => decide (a.time ≤ b.time))) hsorted hpos2
  exact ⟨h1, h2⟩

/-- C7 witness: the order and bounds theorem at a concrete two-regime
input, with the second regime not aligned to the first grid. -/
theorem barlines_sorted_and_bounded_witness :
    List.Pairwise (· < ·)
      (generateBarLinePositions [tpBasic, ⟨900, 60, 4⟩] 0 4000) ∧
    ∀ x ∈ generateBarLinePositions [tpBasic, ⟨900, 60, 4⟩] 0 4000,
      (0 : ℚ) ≤ x ∧ x ≤ 4000 := by
  apply barlines_sorted_and_bounded [tpBasic, ⟨900, 60, 4⟩] 0 4000
  · intro tp htp
    rcases List.mem_cons.mp htp with rfl | htp2
    · exact ⟨by norm_num [tpBasic], by norm_num [tpBasic]⟩
    · rcases List.mem_cons.mp htp2 with rfl | htp3
      · exact ⟨by norm_num, by norm_num⟩
      · simp at htp3
  · norm_num

/-- Characterization of the ratio-search loop: if the counts strictly
below n all miss the target ratio and n (in 1..50) meets it, then the
loop stops at n and picks n - 1 exactly when the previous ratio (the
sentinel 0 at n = 1) is strictly closer to the target; the found count
n is kept on exact equidistance. -/
theorem ratioGo_spec (r : ℚ) (ratioAt : ℚ → ℚ) (n : Nat)
    (hn1 : 1 ≤ n) (hn50 : n ≤ 50)
    (hfound : r ≤ ratioAt (n : ℚ))
    (hbelow : ∀ m : Nat, 1 ≤ m → m < n → ratioAt (m : ℚ) < r) :
    ∀ (fuel k : Nat) (last : ℚ), 1 ≤ k → k ≤ n → 51 - k < fuel →
      last = (if k = 1 then 0 else ratioAt ((k : ℚ) - 1)) →
      ratioGo r ratioAt fuel (k : ℚ) last =
        (if r - (if n = 1 then 0 else ratioAt ((n : ℚ) - 1)) <
            ratioAt (n : ℚ) - r
         then (n : ℚ) - 1 else (n : ℚ)) := by
  intro fuel
  induction fuel with
  | zero =>
    intro k last hk1 hkn hfuel hlast
    omega
  | succ fuel IH =>
    intro k last hk1 hkn hfuel hlast
    have hk50 : (k : ℚ) ≤ 50 := by
      have h : k ≤ 50 := le_trans hkn hn50
      exact_mod_cast h
    simp only [ratioGo]
    rw [if_neg (not_lt.mpr hk50)]
    by_cases hkn2 : k = n
    · subst hkn2
      rw [if_pos (show ratioAt (k : ℚ) ≥ r from hfound), hlast]
    · have hklt : k < n := lt_of_le_of_ne hkn hkn2
      have hcur : ratioAt (k : ℚ) < r := hbelow k hk1 hklt
      rw [if_neg (not_le.mpr hcur)]
      have hcast : (k : ℚ) + 1 = ((k + 1 : Nat) : ℚ) := by push_cast; ring
      rw [hcast]
      apply IH (k + 1) (ratioAt (k : ℚ)) (by omega) (by omega) (by omega)
      rw [if_neg (by omega : ¬ k + 1 = 1)]
      have harg : ((k + 1 : Nat) : ℚ) - 1 = (k : ℚ) := by push_cast; ring
      rw [harg]

/-- C1 (amended): in ratio mode with a valid target ratio r, when the
linear search has a first count n within the cap whose canvas aspect
ratio meets or exceeds r, the resolver picks between n and n - 1
whichever ratio is numerically closer to r, keeping the larger (found)
count n on exact equidistance, and comparing against the sentinel
previous ratio 0 when n = 1 (which can drive the count to 0). -/
theorem ratio_search_characterization (bm : Beatmap) (opts : Options)
    (s r : ℚ) (n : Nat)
    (hs : resolveStart bm opts = .ok s)
    (hmode : opts.strip.mode = .ratio)
    (hr : opts.strip.ratio = some r)
    (hr0 : 0 < r) (hr20 : r ≤ 20)
    (hn1 : 1 ≤ n) (hn50 : n ≤ 50)
    (hbelow : ∀ m : Nat, 1 ≤ m → m < n →
      layoutRatio bm opts s (resolveEnd0 bm opts s) (m : ℚ) < r)
    (hfound : r ≤ layoutRatio bm opts s (resolveEnd0 bm opts s) (n : ℚ)) :
    resolveStrip bm opts s (resolveEnd0 bm opts s) =
      .ok ((if r - (if n = 1 then 0
              else layoutRatio bm opts s (resolveEnd0 bm opts s)
                ((n : ℚ) - 1)) <
            layoutRatio bm opts s (resolveEnd0 bm opts s) (n : ℚ) - r
           then (n : ℚ) - 1 else (n : ℚ)),
          resolveEnd0 bm opts s) := by
  have hloop := ratioGo_spec r
    (layoutRatio bm opts s (resolveEnd0 bm opts s)) n hn1 hn50 hfound
    hbelow 51 1 0 (by norm_num) hn1 (by omega) (by norm_num)
  have hone : ((1 : Nat) : ℚ) = 1 := Nat.cast_one
  rw [hone] at hloop
  simp only [resolveStrip, hmode, hr]
  rw [if_neg (not_le.mpr hr0), if_neg (not_lt.mpr hr20), hloop]

/-- C1 witness: the amended search theorem at the configuration with
candidate ratios m * m / 4 and target 3/2: the first count meeting the
target is 3, and the previous count 2 (ratio 1, distance 1/2) beats it
(ratio 9/4, distance 3/4), so the resolver picks 2. -/
theorem ratio_search_characterization_witness :
    resolveEnd0 bmOneKey optsRatioPick 0 = 4 ∧
    resolveStrip bmOneKey optsRatioPick 0
        (resolveEnd0 bmOneKey optsRatioPick 0) =
      .ok ((if (3/2 : ℚ) - (if (3 : Nat) = 1 then 0
              else layoutRatio bmOneKey optsRatioPick 0
                (resolveEnd0 bmOneKey optsRatioPick 0) (((3 : Nat) : ℚ) - 1)) <
            layoutRatio bmOneKey optsRatioPick 0
              (resolveEnd0 bmOneKey optsRatioPick 0) ((3 : Nat) : ℚ) - 3/2
           then ((3 : Nat) : ℚ) - 1 else ((3 : Nat) : ℚ)),
          resolveEnd0 bmOneKey optsRatioPick 0) := by
  constructor
  · norm_num [resolveEnd0, baseEnd, bmOneKey, optsRatioPick]
  · apply ratio_search_characterization bmOneKey optsRatioPick 0 (3/2) 3
    · norm_num [resolveStart, optsRatioPick]
    · rfl
    · rfl
    · norm_num
    · norm_num
    · norm_num
    · norm_num
    · intro m hm1 hm3
      interval_cases m
      · norm_num [layoutRatio, computeLayout, bmOneKey, optsRatioPick,
          resolveEnd0, baseEnd]
      · norm_num [layoutRatio, computeLayout, bmOneKey, optsRatioPick,
          resolveEnd0, baseEnd]
    · norm_num [layoutRatio, computeLayout, bmOneKey, optsRatioPick,
        resolveEnd0, baseEnd]

/-- Doubling distributes over a maximum followed by a shift: used to
rewrite the fitted canvas total as a maximum. -/
theorem max_mul_two_add (a b c : ℚ) :
    max a b * 2 + c = max (a * 2 + c) (b * 2 + c) := by
  rcases le_total a b with h | h
  · rw [max_eq_right h, max_eq_right (by linarith)]
  · rw [max_eq_left h, max_eq_left (by linarith)]

/-- C3: with a target size whose dimensions lie in 32..20000,
non-negative configured margins, a positive configured final scale and
positive pre-fit content dimensions, the resolver returns a context
whose final scale is exactly the minimum of the configured scale and
the two target-over-total ratios (hence never exceeds the configured
scale), whose margins are at least the configured margins, and whose
fitted canvas satisfies totalWidth * finalScale at most the target
width and totalHeight * finalScale at most the target height, in exact
arithmetic. -/
theorem target_size_fit_bounds (bm : Beatmap) (opts : Options)
    (s nq stop W H : ℚ)
    (hs : resolveStart bm opts = .ok s)
    (hstrip : resolveStrip bm opts s (resolveEnd0 bm opts s) =
      .ok (nq, stop))
    (ht : opts.layout.targetSize = some (W, H))
    (hW1 : 32 ≤ W) (hW2 : W ≤ 20000) (hH1 : 32 ≤ H) (hH2 : H ≤ 20000)
    (hm1 : 0 ≤ opts.layout.margin.1) (hm2 : 0 ≤ opts.layout.margin.2)
    (hf : 0 < opts.layout.finalScale)
    (hcw : 0 < (computeLayout bm opts s stop nq).contentWidth)
    (hch : 0 < (computeLayout bm opts s stop nq).contentHeight) :
    ∃ ctx, resolveOptions bm opts = .ok ctx ∧
      ctx.finalScale = min opts.layout.finalScale
        (min (W / (computeLayout bm opts s stop nq).totalWidth)
             (H / (computeLayout bm opts s stop nq).totalHeight)) ∧
      ctx.finalScale ≤ opts.layout.finalScale ∧
      opts.layout.margin.1 ≤ ctx.margin.1 ∧
      opts.layout.margin.2 ≤ ctx.margin.2 ∧
      ctx.totalWidth * ctx.finalScale ≤ W ∧
      ctx.totalHeight * ctx.finalScale ≤ H := by
  set L := computeLayout bm opts s stop nq with hL
  have hTW : L.totalWidth = opts.layout.margin.1 * 2 + L.contentWidth := rfl
  have hTH : L.totalHeight = opts.layout.margin.2 * 2 + L.contentHeight :=
    rfl
  have htw0 : 0 < L.totalWidth := by rw [hTW]; linarith
  have hth0 : 0 < L.totalHeight := by rw [hTH]; linarith
  have hW0 : (0 : ℚ) < W := by linarith
  have hH0 : (0 : ℚ) < H := by linarith
  set f := min opts.layout.finalScale
    (min (W / L.totalWidth) (H / L.totalHeight)) with hfdef
  have hf0 : 0 < f :=
    lt_min hf (lt_min (div_pos hW0 htw0) (div_pos hH0 hth0))
  have hfne : f ≠ 0 := ne_of_gt hf0
  set mx := max opts.layout.margin.1 ((W / f - L.contentWidth) / 2)
    with hmx
  set my := max opts.layout.margin.2 ((H / f - L.contentHeight) / 2)
    with hmy
  have hfit : applyTargetSize opts L =
      .ok (f, (mx, my), mx * 2 + L.contentWidth,
        my * 2 + L.contentHeight) := by
    simp only [applyTargetSize, ht]
    rw [if_neg]
    push_neg
    exact ⟨by linarith, by linarith, by linarith, by linarith⟩
  have hfW : f ≤ W / L.totalWidth :=
    le_trans (min_le_right _ _) (min_le_left _ _)
  have hfH : f ≤ H / L.totalHeight :=
    le_trans (min_le_right _ _) (min_le_right _ _)
  have htwf : f * L.totalWidth ≤ W := (le_div_iff₀ htw0).mp hfW
  have hthf : f * L.totalHeight ≤ H := (le_div_iff₀ hth0).mp hfH
  have htw1 : mx * 2 + L.contentWidth = max L.totalWidth (W / f) := by
    rw [hmx, max_mul_two_add, ← hTW,
      show (W / f - L.contentWidth) / 2 * 2 + L.contentWidth = W / f
        from by ring]
  have hth1 : my * 2 + L.contentHeight = max L.totalHeight (H / f) := by
    rw [hmy, max_mul_two_add, ← hTH,
      show (H / f - L.contentHeight) / 2 * 2 + L.contentHeight = H / f
        from by ring]
  have hbound1 : (mx * 2 + L.contentWidth) * f ≤ W := by
    rw [htw1, max_mul_of_nonneg _ _ (le_of_lt hf0)]
    apply max_le
    · rw [mul_comm]; exact htwf
    · rw [div_mul_cancel₀ _ hfne]
  have hbound2 : (my * 2 + L.contentHeight) * f ≤ H := by
    rw [hth1, max_mul_of_nonneg _ _ (le_of_lt hf0)]
    apply max_le
    · rw [mul_comm]; exact hthf
    · rw [div_mul_cancel₀ _ hfne]
  refine ⟨{ beatmap := bm
            note := opts.note
            axis := opts.axis
            time := { start := s, stop := stop, scale := opts.time.scale }
            strip := { num := nq, width := L.stripWidth,
                       height := L.stripHeight }
            margin := (mx, my)
            totalWidth := mx * 2 + L.contentWidth
            totalHeight := my * 2 + L.contentHeight
            finalScale := f }, ?_, rfl, min_le_left _ _, le_max_left _ _,
    le_max_left _ _, hbound1, hbound2⟩
  simp only [resolveOptions, hs, hstrip]
  rw [← hL]
  simp only [hfit]

/-- C3 witness: the fit theorem at the concrete num-mode configuration
with target size 100 by 100 over the pre-fit canvas 900 by 22. -/
theorem target_size_fit_bounds_witness :
    ∃ ctx, resolveOptions bmFourKeys optsTargetFit = .ok ctx ∧
      ctx.finalScale = min optsTargetFit.layout.finalScale
        (min (100 /
          (computeLayout bmFourKeys optsTargetFit 0 160 8).totalWidth)
          (100 /
            (computeLayout bmFourKeys optsTargetFit 0 160 8).totalHeight)) ∧
      ctx.finalScale ≤ optsTargetFit.layout.finalScale ∧
      optsTargetFit.layout.margin.1 ≤ ctx.margin.1 ∧
      optsTargetFit.layout.margin.2 ≤ ctx.margin.2 ∧
      ctx.totalWidth * ctx.finalScale ≤ 100 ∧
      ctx.totalHeight * ctx.finalScale ≤ 100 := by
  have hend : resolveEnd0 bmFourKeys optsTargetFit 0 = 160 := by
    norm_num [resolveEnd0, baseEnd, bmFourKeys, optsTargetFit,
      optsNumWindow, noteDefaults]
  apply target_size_fit_bounds bmFourKeys optsTargetFit 0 8 160 100 100
  · norm_num [resolveStart, optsTargetFit, optsNumWindow]
  · rw [hend]
    norm_num [resolveStrip, optsTargetFit, optsNumWindow]
  · rfl
  · norm_num
  · norm_num
  · norm_num
  · norm_num
  · norm_num [optsTargetFit, optsNumWindow]
  · norm_num [optsTargetFit, optsNumWindow]
  · norm_num [optsTargetFit, optsNumWindow]
  · norm_num [computeLayout, bmFourKeys, optsTargetFit, optsNumWindow,
      noteDefaults]
  · norm_num [computeLayout, bmFourKeys, optsTargetFit, optsNumWindow,
      noteDefaults]

end ManiaSvg
